import Mathlib

/-!
Shallow embedding of `src/src-tauri/scripts/transcript_summarizer.py`
(the NeuroFlow transcript summarizer batch pipeline) and proofs about it.

Text is modelled as `List Char`.  The Python regular expressions used by
the identifier extractor are translated into executable matchers whose
backtracking behaviour on the concrete patterns is deterministic, as
explained at each definition.
-/

abbrev Str := List Char

def str (s : String) : Str := s.data

/-- Python `\s` whitespace class (the characters relevant to the script). -/
def isWs (c : Char) : Bool :=
  c = ' ' || c = '\t' || c = '\n' || c = '\r' || c = '\x0b' || c = '\x0c'

/-- The `[A-Za-z0-9_-]` character class of `_YT_ID`. -/
def isIdChar (c : Char) : Bool :=
  c.isAlpha || c.isDigit || c = '_' || c = '-'

/-- Python regex word characters (for `\b`): `[A-Za-z0-9_]`. -/
def isWordChar (c : Char) : Bool := c.isAlpha || c.isDigit || c = '_'

/-- The `['\"]` character class. -/
def isQuote (c : Char) : Bool := c = '\'' || c = '"'

/-- Match a literal character sequence at the head, returning the rest. -/
def eatLit : Str → Str → Option Str
  | [], s => some s
  | _ :: _, [] => none
  | p :: ps, c :: cs => if c = p then eatLit ps cs else none

/-- Take exactly `n` characters of the id class (the `{11}` quantifier
of `_YT_ID`). -/
def takeId : Nat → Str → Option (Str × Str)
  | 0, s => some ([], s)
  | _+1, [] => none
  | n+1, c :: cs =>
    if isIdChar c then (takeId n cs).map (fun p => (c :: p.1, p.2)) else none

/-- `\b` directly after the 11-char token: a word boundary between the
token's last character and the following character (or end of input). -/
def boundaryAfter (lastC : Char) : Str → Bool
  | [] => isWordChar lastC
  | c :: _ => isWordChar lastC != isWordChar c

/-- The trailing group `(\b|&|#|/)` of the `[?&]v=` pattern. -/
def tail1Ok (lastC : Char) (r : Str) : Bool :=
  boundaryAfter lastC r ||
    (match r with | c :: _ => c = '&' || c = '#' || c = '/' | [] => false)

/-- The trailing group `(\b|[?&#/])` of the `youtu.be` / `shorts` patterns. -/
def tail2Ok (lastC : Char) (r : Str) : Bool :=
  boundaryAfter lastC r ||
    (match r with
     | c :: _ => c = '?' || c = '&' || c = '#' || c = '/'
     | [] => false)

/-- `[?&]v=([A-Za-z0-9_-]{11})(\b|&|#|/)` tried at the current position. -/
def tryP1 : Str → Option Str
  | [] => none
  | c :: rest =>
    if c = '?' ∨ c = '&' then
      match eatLit (str "v=") rest with
      | some r1 =>
        match takeId 11 r1 with
        | some (tok, r2) => if tail1Ok (tok.getLastD ' ') r2 then some tok else none
        | none => none
      | none => none
    else none

/-- `re.search` for the first pattern: try every position, leftmost wins. -/
def searchP1 : Str → Option Str
  | [] => none
  | c :: rest =>
    match tryP1 (c :: rest) with
    | some t => some t
    | none => searchP1 rest

/-- `youtu\.be/([A-Za-z0-9_-]{11})(\b|[?&#/])` tried at the current position. -/
def tryP2 (s : Str) : Option Str :=
  match eatLit (str "youtu.be/") s with
  | some r1 =>
    match takeId 11 r1 with
    | some (tok, r2) => if tail2Ok (tok.getLastD ' ') r2 then some tok else none
    | none => none
  | none => none

def searchP2 : Str → Option Str
  | [] => none
  | c :: rest =>
    match tryP2 (c :: rest) with
    | some t => some t
    | none => searchP2 rest

/-- `youtube\.com/shorts/([A-Za-z0-9_-]{11})(\b|[?&#/])` at the current position. -/
def tryP3 (s : Str) : Option Str :=
  match eatLit (str "youtube.com/shorts/") s with
  | some r1 =>
    match takeId 11 r1 with
    | some (tok, r2) => if tail2Ok (tok.getLastD ' ') r2 then some tok else none
    | none => none
  | none => none

def searchP3 : Str → Option Str
  | [] => none
  | c :: rest =>
    match tryP3 (c :: rest) with
    | some t => some t
    | none => searchP3 rest

/-- `_extract_from_url`: the three URL shapes tried in source order. -/
def extract_from_url (u : Str) : Option Str :=
  match searchP1 u with
  | some t => some t
  | none =>
    match searchP2 u with
    | some t => some t
    | none => searchP3 u

/-- Greedy `\s*` (deterministic here: every continuation after a `\s*` in
the script's patterns starts with a non-whitespace character). -/
def skipWs (s : Str) : Str := s.dropWhile isWs

/-- `\s*$` under `re.M`: optional non-newline whitespace, then a line end
(end of input or a `\n`, before which `$` matches). -/
def wsEol : Str → Bool
  | [] => true
  | '\n' :: _ => true
  | c :: rest => if isWs c then wsEol rest else false

/-- Consume one leading `'` or `"` if present (the greedy `['\"]?`;
deterministic because what must follow is never a quote). -/
def eatQuoteOpt : Str → Str
  | [] => []
  | c :: rest => if isQuote c then rest else c :: rest

/-- The `video_id` YAML-field pattern
`^\s*video_id\s*:\s*['\"]?([A-Za-z0-9_-]{11})['\"]?\s*$` (with `re.M`)
tried at a line-start position. -/
def matchVidFieldAt (s : Str) : Option Str :=
  match eatLit (str "video_id") (skipWs s) with
  | none => none
  | some s2 =>
    match skipWs s2 with
    | ':' :: s4 =>
      match takeId 11 (eatQuoteOpt (skipWs s4)) with
      | some (tok, r) => if wsEol (eatQuoteOpt r) then some tok else none
      | none => none
    | _ => none

/-- Try `f` after every `\n` of the text (the `^` positions of `re.M`
other than position 0), in order. -/
def goLines (f : Str → Option Str) : Str → Option Str
  | [] => none
  | c :: rest =>
    if c = '\n' then
      match f rest with
      | some v => some v
      | none => goLines f rest
    else goLines f rest

/-- `re.search` with a `^`-anchored multiline pattern: try position 0,
then every position following a newline, leftmost first. -/
def searchMLine (f : Str → Option Str) (text : Str) : Option Str :=
  match f text with
  | some v => some v
  | none => goLines f text

/-- Does `['\"]?\s*$` match here?  (Stop condition of the lazy group.) -/
def succAfter : Str → Bool
  | [] => true
  | c :: r => (isQuote c && wsEol r) || wsEol (c :: r)

/-- The lazy group `(.+?)` followed by `['\"]?\s*$`: the shortest nonempty
prefix of the current line after which the tail pattern matches. -/
def lazyGroup : Str → Str
  | [] => []
  | c :: rest => c :: (if succAfter rest then [] else lazyGroup rest)

/-- The value part `\s*['\"]?(.+?)['\"]?\s*$` after the field's colon,
following the regex engine's backtracking order: maximal `\s*` first
(giving back characters only when `(.+?)` cannot start), opening quote
consumed greedily when the group can still start after it. -/
def afterColonValue (s : Str) : Option Str :=
  match skipWs s with
  | [] =>
    -- `\s*` ran to the end of input: backtrack to the last whitespace
    -- character that `.` can match (any but `\n`); the lazy group then
    -- succeeds immediately with that single character.
    match (s.takeWhile isWs).reverse.dropWhile (fun c => c = '\n') with
    | [] => none
    | c :: _ => some [c]
  | c :: rest =>
    if isQuote c then
      match rest with
      | [] => some (lazyGroup (c :: rest))
      | c2 :: _ =>
        if c2 = '\n' then some (lazyGroup (c :: rest))
        else some (lazyGroup rest)
    else some (lazyGroup (c :: rest))

/-- The URL-field pattern `^\s*{field}\s*:\s*['\"]?(.+?)['\"]?\s*$`
(with `re.M`) tried at a line-start position; returns the group. -/
def matchFieldAt (field : Str) (s : Str) : Option Str :=
  match eatLit field (skipWs s) with
  | none => none
  | some s2 =>
    match skipWs s2 with
    | ':' :: s4 => afterColonValue s4
    | _ => none

/-- One iteration of the `for field in (...)` loop body: search the text
for the field pattern; on a match run `_extract_from_url` on the value. -/
def fieldUrlLookup (field : Str) (text : Str) : Option Str :=
  match searchMLine (matchFieldAt field) text with
  | some v => extract_from_url v
  | none => none

/-- `[^\s)>\]]` — characters allowed inside a found URL. -/
def isUrlChar (c : Char) : Bool := !(isWs c || c = ')' || c = '>' || c = ']')

/-- `https?://` then at least one allowed character, at this position;
returns the match and the remaining input after it. -/
def tryUrl (s : Str) : Option (Str × Str) :=
  match eatLit (str "http") s with
  | none => none
  | some r1 =>
    let (pre, r2) :=
      match r1 with
      | 's' :: r => (str "https", r)
      | _ => (str "http", r1)
    match eatLit (str "://") r2 with
    | none => none
    | some r3 =>
      match r3.takeWhile isUrlChar with
      | [] => none
      | body => some (pre ++ str "://" ++ body, r3.dropWhile isUrlChar)

/-- `re.findall(r"(https?://[^\s)>\]]+)", text)`: all non-overlapping
matches, left to right (fuelled by the text length). -/
def findUrlsGo : Nat → Str → List Str
  | 0, _ => []
  | _+1, [] => []
  | fuel+1, c :: rest =>
    match tryUrl (c :: rest) with
    | some (u, r) => u :: findUrlsGo fuel r
    | none => findUrlsGo fuel rest

def findUrls (text : Str) : List Str := findUrlsGo text.length text

/-- The loop over found URLs: first successful extraction wins. -/
def urlsLoop : List Str → Option Str
  | [] => none
  | u :: rest =>
    match extract_from_url u with
    | some v => some v
    | none => urlsLoop rest

/-- `extract_video_id`: the three strategies in source order —
direct `video_id` field, URL-bearing fields, any URL in the text. -/
def extract_video_id (text : Str) : Option Str :=
  match searchMLine matchVidFieldAt text with
  | some tok => some tok
  | none =>
    match fieldUrlLookup (str "url") text with
    | some v => some v
    | none =>
      match fieldUrlLookup (str "source_url") text with
      | some v => some v
      | none =>
        match fieldUrlLookup (str "original_url") text with
        | some v => some v
        | none => urlsLoop (findUrls text)

/-! ## Stability detector (`wait_for_stable`)

Time is abstracted into the list of size samples the loop gets to see
before `time.time()` reaches the deadline: entry `none` models a
`FileNotFoundError` from `path.stat()`, entry `some n` a size of `n`.
Exhausting the list models reaching the timeout. -/

def wfsGo (stable_checks : Nat) : List (Option Nat) → Int → Nat → Bool
  | [], _, _ => false
  | none :: rest, last, steady => wfsGo stable_checks rest last steady
  | some size :: rest, last, steady =>
    if (size : Int) = last ∧ 0 < size then
      if stable_checks ≤ steady + 1 then true
      else wfsGo stable_checks rest last (steady + 1)
    else wfsGo stable_checks rest (size : Int) 0

/-- `wait_for_stable`: `last = -1`, `steady = 0`, then the sampling loop. -/
def wait_for_stable (samples : List (Option Nat)) (stable_checks : Nat) : Bool :=
  wfsGo stable_checks samples (-1) 0

/-! ## Summarization client (`call_lm_studio_markdown`)

The single HTTP round trip is abstracted into the response record the
function inspects: the status code, the raw body text, and the parsed
`message.content` / `message.reasoning` fields (`none` models an absent
field, mirroring `msg.get(...)` returning `None`). -/

structure LMResponse where
  status : Nat
  text : Str
  content : Option Str
  reasoning : Option Str

/-- Python's `a or b` chain on optional strings: `None` and `""` fall
through to the right operand. -/
def pyOrStr (a : Option Str) (b : Str) : Str :=
  match a with
  | some s => if s = [] then b else s
  | none => b

/-- `msg.get("content") or msg.get("reasoning") or ""`. -/
def msgPick (r : LMResponse) : Str := pyOrStr r.content (pyOrStr r.reasoning [])

/-- Python `str.strip()`. -/
def pyStrip (s : Str) : Str := ((s.dropWhile isWs).reverse.dropWhile isWs).reverse

/-- The left alternative `^```(?:markdown|md)?\s*` of the fence-stripping
`re.sub` (greedy, nothing after it forces backtracking). -/
def stripLeadingFence (s : Str) : Str :=
  match eatLit (str "```") s with
  | none => s
  | some r =>
    let r2 :=
      match eatLit (str "markdown") r with
      | some x => x
      | none =>
        match eatLit (str "md") r with
        | some x => x
        | none => r
    skipWs r2

/-- The right alternative `\s*```$` of the fence-stripping `re.sub`:
remove a final ```` ``` ```` and the whitespace run before it. -/
def stripTrailingFence (s : Str) : Str :=
  match eatLit (str "```") s.reverse with
  | some r => (r.dropWhile isWs).reverse
  | none => s

def natToStr (n : Nat) : Str := str (toString n)

/-- The post-emptiness-check normalization applied to the stripped
message: fence stripping (only when the text starts with ```` ``` ````)
and the trailing-newline guarantee. -/
def normalizeBody (out : Str) : Str :=
  let out2 :=
    match eatLit (str "```") out with
    | some _ => pyStrip (stripTrailingFence (stripLeadingFence out))
    | none => out
  out2 ++ (if out2.getLast? = some '\n' then [] else ['\n'])

/-- `call_lm_studio_markdown`: status check, content-or-reasoning pick,
emptiness check, fence stripping, trailing-newline normalization.
`input_text` only shapes the request payload, never the result. -/
def call_lm_studio_markdown (input_text : Str) (resp : LMResponse) : Except Str Str :=
  let _ := input_text
  if 400 ≤ resp.status then
    .error (str "LM Studio error " ++ natToStr resp.status ++ str ": " ++ resp.text)
  else
    let out := pyStrip (msgPick resp)
    if out = [] then
      .error (str "Empty assistant message. Raw: " ++ resp.text.take 800)
    else
      .ok (normalizeBody out)

/-! ## Filesystem model

A filesystem is a map from paths to file contents; `none` means the path
does not exist.  `replaceFile` models `FPath.replace` (one atomic rename),
`unlinkMissingOk` models `FPath.unlink(missing_ok=True)`. -/

abbrev FPath := String

abbrev FS := FPath → Option Str

def writeFile (fs : FS) (p : FPath) (content : Str) : FS :=
  fun q => if q = p then some content else fs q

def replaceFile (fs : FS) (src dst : FPath) : FS :=
  fun q => if q = dst then fs src else if q = src then none else fs q

def unlinkMissingOk (fs : FS) (p : FPath) : FS :=
  fun q => if q = p then none else fs q

/-! ## Asset fetcher (`download_thumbnail`)

The network is abstracted into `ThumbNet`: `none` models `requests.get`
(or the byte write) raising — caught by the function's own
`try/except` — and `some (status, body)` a completed response.  The
third component of the result counts the network requests made. -/

structure ThumbNet where
  resp : Option (Nat × Str)

/-- `asset_template.format(videoId=video_id)`: substitute the
`\x7bvideoId\x7d` placeholder. -/
def substVidGo : Nat → Str → Str → Str
  | 0, s, _ => s
  | _+1, [], _ => []
  | fuel+1, c :: rest, v =>
    match eatLit (str "\x7bvideoId\x7d") (c :: rest) with
    | some r => v ++ substVidGo fuel r v
    | none => c :: substVidGo fuel rest v

def resolveTemplate (asset_template : String) (video_id : Str) : FPath :=
  String.mk (substVidGo asset_template.data.length asset_template.data video_id)

/-- The fetch half of `download_thumbnail` (inside the `try`). -/
def thumbFetch (fs : FS) (out_path : FPath) (net : ThumbNet) : Option FPath × FS × Nat :=
  match net.resp with
  | none => (none, fs, 1)
  | some (status, body) =>
    if status ≠ 200 then (none, fs, 1)
    else (some out_path, writeFile fs out_path body, 1)

/-- `download_thumbnail`: reuse an existing non-empty file, otherwise one
network request; any failure yields `none` and an unchanged filesystem. -/
def download_thumbnail (fs : FS) (video_id : Str) (asset_template : String)
    (net : ThumbNet) : Option FPath × FS × Nat :=
  let out_path := resolveTemplate asset_template video_id
  match fs out_path with
  | some c => if c = [] then thumbFetch fs out_path net else (some out_path, fs, 0)
  | none => thumbFetch fs out_path net

/-! ## File processor (`process_file`) and batch runner (`main`) -/

/-- The per-file result dict returned by `process_file`. -/
structure ProcResult where
  source : FPath
  output : FPath
  video_id : Option Str
  thumbnail : Option FPath
deriving DecidableEq

/-- One entry of the batch `results` list. -/
inductive FileResult
  | ok (r : ProcResult)
  | fail (source : FPath) (err : Str)
deriving DecidableEq

def FileResult.source : FileResult → FPath
  | .ok r => r.source
  | .fail s _ => s

def FileResult.isFail : FileResult → Bool
  | .ok _ => false
  | .fail _ _ => true

/-- The JSON messages written by `emit`. -/
inductive Event
  | status (message : String)
  | progress (file : FPath) (stage : String)
  | progressIdx (file : FPath) (index total : Nat)
  | success (source output : FPath) (video_id : Option Str) (thumbnail : Option FPath)
  | error (file : FPath) (msg : Str)
  | complete (processed failed : Nat) (results : List FileResult)
deriving DecidableEq

/-- The per-file external world: the size samples the stability loop
sees, the LM Studio response, and the thumbnail network.  `thumbRaises`
models an exception escaping `download_thumbnail` itself (e.g. from
`mkdir`), swallowed by the `try/except` in `process_file`. -/
structure FileEnv where
  samples : List (Option Nat)
  resp : LMResponse
  thumbNet : ThumbNet
  thumbRaises : Bool

/-- `src_path.name`. -/
def fileName (p : FPath) : String :=
  String.mk ((p.data.reverse.takeWhile (fun c => c ≠ '/')).reverse)

/-- `process_file`: stability wait, read, id extraction, summarization,
atomic write (temp write + rename), best-effort thumbnail, source
removal.  Returns the result (or the propagating exception), the final
filesystem, and the progress events emitted. -/
def process_file (fs : FS) (src_path : FPath) (out_dir : String) (env : FileEnv)
    (asset_template : Option String) : Except Str ProcResult × FS × List Event :=
  let ev0 := [Event.progress src_path "reading"]
  if wait_for_stable env.samples 3 = false then
    (.error (str "File did not become stable in time."), fs, ev0)
  else
    match fs src_path with
    | none => (.error (str "No such file or directory"), fs, ev0)
    | some text =>
      let vid0 := extract_video_id text
      let ev1 := ev0 ++ [Event.progress src_path "summarizing"]
      match call_lm_studio_markdown text env.resp with
      | .error e => (.error e, fs, ev1)
      | .ok summary_md =>
        let video_id := match vid0 with | some v => some v | none => extract_video_id summary_md
        let out_path : FPath := out_dir ++ "/" ++ fileName src_path
        let tmp : FPath := out_path ++ ".tmp"
        let fs2 := replaceFile (writeFile fs tmp summary_md) tmp out_path
        let thumbRes : Option FPath × FS :=
          match asset_template, video_id with
          | some t, some v =>
            if env.thumbRaises then (none, fs2)
            else
              let r := download_thumbnail fs2 v t env.thumbNet
              (r.1, r.2.1)
          | _, _ => (none, fs2)
        let fs4 := unlinkMissingOk thumbRes.2 src_path
        (.ok ⟨src_path, out_path, video_id, thumbRes.1⟩, fs4, ev1)

/-- The `for i, src_path in enumerate(pending)` loop of `main`:
events emitted, results collected, failure count, final filesystem. -/
def mainLoop (out_dir : String) (tmpl : Option String) (total : Nat) :
    FS → Nat → List (FPath × FileEnv) → List Event × List FileResult × Nat × FS
  | fs, _, [] => ([], [], 0, fs)
  | fs, i, (src, env) :: rest =>
    let pr := process_file fs src out_dir env tmpl
    match pr.1 with
    | .ok r =>
      let t := mainLoop out_dir tmpl total pr.2.1 (i + 1) rest
      (Event.progressIdx src i total :: pr.2.2
         ++ [Event.success r.source r.output r.video_id r.thumbnail] ++ t.1,
       FileResult.ok r :: t.2.1, t.2.2.1, t.2.2.2)
    | .error e =>
      let t := mainLoop out_dir tmpl total pr.2.1 (i + 1) rest
      (Event.progressIdx src i total :: pr.2.2 ++ [Event.error src e] ++ t.1,
       FileResult.fail src e :: t.2.1, t.2.2.1 + 1, t.2.2.2)

/-- `main` after argument parsing and directory checks: the status event,
the per-file loop (or the empty-batch early return), and the final
`complete` event carrying `processed`, `failed` and `results`. -/
def mainRun (fs : FS) (files : List (FPath × FileEnv)) (out_dir : String)
    (tmpl : Option String) : List Event × List FileResult × Nat × FS :=
  let ev0 := [Event.status ("Found " ++ toString files.length ++ " pending transcripts")]
  match files with
  | [] => (ev0 ++ [Event.complete 0 0 []], [], 0, fs)
  | _ :: _ =>
    let t := mainLoop out_dir tmpl files.length fs 0 files
    (ev0 ++ t.1 ++ [Event.complete (files.length - t.2.2.1) t.2.2.1 t.2.1],
     t.2.1, t.2.2.1, t.2.2.2)

/-- The states the filesystem can be observed in if execution stops
anywhere inside the atomic-write step of `process_file`: before the
temporary write, during it (any prefix of the content flushed), after
it, and after the rename. -/
inductive AtomicWriteState (fs0 : FS) (out_path : FPath) (content : Str) : FS → Prop
  | start : AtomicWriteState fs0 out_path content fs0
  | tmpPartial (n : Nat) :
      AtomicWriteState fs0 out_path content
        (writeFile fs0 (out_path ++ ".tmp") (content.take n))
  | tmpDone :
      AtomicWriteState fs0 out_path content
        (writeFile fs0 (out_path ++ ".tmp") content)
  | renamed :
      AtomicWriteState fs0 out_path content
        (replaceFile (writeFile fs0 (out_path ++ ".tmp") content)
          (out_path ++ ".tmp") out_path)

example : extract_from_url (str "https://www.youtube.com/watch?v=dQw4w9WgXcQ")
    = some (str "dQw4w9WgXcQ") := by decide
example : extract_from_url (str "https://youtu.be/dQw4w9WgXcQ")
    = some (str "dQw4w9WgXcQ") := by decide
example : extract_from_url (str "https://youtube.com/shorts/dQw4w9WgXcQ?feature=x")
    = some (str "dQw4w9WgXcQ") := by decide
example : extract_from_url (str "https://youtu.be/abcdefghij-") = none := by decide
example : extract_from_url (str "https://youtu.be/abcdefghij") = none := by decide
example : extract_from_url (str "https://youtu.be/abcdefghijkl") = none := by decide
example : extract_from_url (str "https://youtu.be/abcdefghijk-") = some (str "abcdefghijk") := by decide
example : extract_video_id (str "---\nvideo_id: dQw4w9WgXcQ\nurl: https://youtu.be/AAAAAAAAAAA\n---\nbody") = some (str "dQw4w9WgXcQ") := by decide
example : extract_video_id (str "---\nurl: \"https://youtu.be/AAAAAAAAAAA\"\n---\n") = some (str "AAAAAAAAAAA") := by decide
example : extract_video_id (str "see https://www.youtube.com/watch?v=dQw4w9WgXcQ today") = some (str "dQw4w9WgXcQ") := by decide
example : extract_video_id (str "nothing here") = none := by decide
example : extract_video_id (str "video_id: tooLongId12345\nurl: https://youtu.be/BBBBBBBBBBB/") = some (str "BBBBBBBBBBB") := by decide

/-! ## Helper lemmas -/

theorem appendTmp_ne (p : FPath) : p ++ ".tmp" ≠ p := by
  intro h
  have h2 := congrArg String.length h
  rw [String.length_append] at h2
  have h3 : String.length ".tmp" = 4 := rfl
  omega

theorem eatLit_self (p s : Str) : eatLit p (p ++ s) = some s := by
  induction p with
  | nil => rfl
  | cons c cs ih => simp [eatLit, ih]

theorem takeId_append (tok rest : Str) (hid : ∀ x ∈ tok, isIdChar x = true) :
    takeId tok.length (tok ++ rest) = some (tok, rest) := by
  induction tok with
  | nil => rfl
  | cons c cs ih =>
    simp only [List.length_cons, List.cons_append, takeId]
    rw [hid c (by simp)]
    simp [ih (fun x hx => hid x (by simp [hx]))]

theorem takeId_short (n : Nat) (s : Str) (h : s.length < n) : takeId n s = none := by
  induction s generalizing n with
  | nil =>
    cases n with
    | zero => omega
    | succ m => rfl
  | cons c cs ih =>
    cases n with
    | zero => omega
    | succ m =>
      simp only [takeId]
      rcases hc : isIdChar c with _ | _
      · simp
      · simp only [if_pos rfl]
        rw [ih m (by simpa using h)]
        rfl

/-! ## C2: atomic write -/

/-- C2: the file processor writes the summary to the temporary path
`out_path ++ ".tmp"` (a path distinct from the final one) and then
performs a single atomic rename; in every state in which execution can
stop, the final output path holds either its old content or the complete
new document, never a truncation. -/
theorem atomic_write_no_partial (fs0 : FS) (out_path : FPath) (content : Str) (fs : FS)
    (h : AtomicWriteState fs0 out_path content fs) :
    (out_path ++ ".tmp" ≠ out_path) ∧
      (fs out_path = fs0 out_path ∨ fs out_path = some content) := by
  refine ⟨appendTmp_ne out_path, ?_⟩
  cases h with
  | start => exact Or.inl rfl
  | tmpPartial n =>
    left
    simp only [writeFile]
    rw [if_neg (Ne.symm (appendTmp_ne out_path))]
  | tmpDone =>
    left
    simp only [writeFile]
    rw [if_neg (Ne.symm (appendTmp_ne out_path))]
  | renamed =>
    right
    simp [replaceFile, writeFile]

theorem atomic_write_no_partial_witness :
    (("/out/a.md" ++ ".tmp" ≠ "/out/a.md") ∧
      ((fun _ => none : FS) "/out/a.md" = (fun _ => none : FS) "/out/a.md" ∨
        (fun _ => none : FS) "/out/a.md" = some (str "S"))) :=
  atomic_write_no_partial (fun _ => none) "/out/a.md" (str "S") _ .start

/-! ## C8: cleanup -/

theorem process_file_error_keeps_fs (fs : FS) (src : FPath) (out_dir : String)
    (env : FileEnv) (tmpl : Option String) :
    ∀ e, (process_file fs src out_dir env tmpl).1 = .error e →
      (process_file fs src out_dir env tmpl).2.1 = fs := by
  intro e
  simp only [process_file]
  split
  · intro; rfl
  · split
    · intro; rfl
    · split
      · intro; rfl
      · intro h; simp at h

theorem download_preserves_some (fs : FS) (v : Str) (t : String) (net : ThumbNet)
    (p : FPath) (h : ∃ c, fs p = some c) :
    ∃ c, (download_thumbnail fs v t net).2.1 p = some c := by
  simp only [download_thumbnail, thumbFetch]
  split
  · split
    · split
      · exact h
      · split
        · exact h
        · simp only [writeFile]
          split
          · exact ⟨_, rfl⟩
          · exact h
    · exact h
  · split
    · exact h
    · split
      · exact h
      · simp only [writeFile]
        split
        · exact ⟨_, rfl⟩
        · exact h

theorem process_file_ok_cleanup (fs : FS) (src : FPath) (out_dir : String)
    (env : FileEnv) (tmpl : Option String)
    (hso : out_dir ++ "/" ++ fileName src ≠ src) :
    ∀ r, (process_file fs src out_dir env tmpl).1 = .ok r →
      (process_file fs src out_dir env tmpl).2.1 src = none ∧
      (∃ c, (process_file fs src out_dir env tmpl).2.1 r.output = some c) := by
  intro r
  simp only [process_file]
  split
  · intro h; simp at h
  · split
    · intro h; simp at h
    · split
      · intro h; simp at h
      · intro h
        rw [Except.ok.injEq] at h
        subst h
        refine ⟨by simp [unlinkMissingOk], ?_⟩
        simp only [unlinkMissingOk]
        rw [if_neg hso]
        have hout : ∀ content : Str, ∃ c,
            (replaceFile
              (writeFile fs (out_dir ++ "/" ++ fileName src ++ ".tmp") content)
              (out_dir ++ "/" ++ fileName src ++ ".tmp")
              (out_dir ++ "/" ++ fileName src)) (out_dir ++ "/" ++ fileName src) =
            some c := by
          intro content
          simp [replaceFile, writeFile]
        split
        · split
          · exact hout _
          · exact download_preserves_some _ _ _ _ _ (hout _)
        · exact hout _

/-- C8: the source file is removed only on the success path — every
failing run returns the filesystem unchanged (source still present),
while a successful run leaves the source absent and the output present —
and source deletion is the tolerant `unlink(missing_ok=True)`: deleting
an already-removed path is a no-op, not an error. -/
theorem cleanup_spec (fs : FS) (src : FPath) (out_dir : String)
    (env : FileEnv) (tmpl : Option String)
    (hso : out_dir ++ "/" ++ fileName src ≠ src) :
    (∀ e, (process_file fs src out_dir env tmpl).1 = .error e →
      (process_file fs src out_dir env tmpl).2.1 = fs) ∧
    (∀ r, (process_file fs src out_dir env tmpl).1 = .ok r →
      (process_file fs src out_dir env tmpl).2.1 src = none ∧
      (∃ c, (process_file fs src out_dir env tmpl).2.1 r.output = some c)) ∧
    (∀ (g : FS) (p : FPath),
      unlinkMissingOk (unlinkMissingOk g p) p = unlinkMissingOk g p ∧
      (g p = none → unlinkMissingOk g p = g)) := by
  refine ⟨process_file_error_keeps_fs fs src out_dir env tmpl,
          process_file_ok_cleanup fs src out_dir env tmpl hso,
          fun g p => ⟨?_, fun hg => ?_⟩⟩
  · funext q
    simp only [unlinkMissingOk]
    split <;> rfl
  · funext q
    simp only [unlinkMissingOk]
    split
    · next hq => rw [hq, hg]
    · rfl

/-! ## C4: asset fetch is best-effort -/

/-- A `ProcResult` without its thumbnail field. -/
def dropThumb (r : ProcResult) : FPath × FPath × Option Str := (r.source, r.output, r.video_id)

theorem download_thumbnail_fail_none (fs : FS) (v : Str) (t : String) (net : ThumbNet)
    (hnc : ∀ c, fs (resolveTemplate t v) = some c → c = [])
    (herr : net.resp = none ∨ ∃ st body, net.resp = some (st, body) ∧ st ≠ 200) :
    (download_thumbnail fs v t net).1 = none ∧ (download_thumbnail fs v t net).2.1 = fs := by
  have hfetch : (thumbFetch fs (resolveTemplate t v) net).1 = none ∧
      (thumbFetch fs (resolveTemplate t v) net).2.1 = fs := by
    rcases herr with h | ⟨st, body, h, hst⟩
    · simp [thumbFetch, h]
    · simp [thumbFetch, h, hst]
  simp only [download_thumbnail]
  split
  · next c hc =>
    rw [if_pos (hnc c hc)]
    exact hfetch
  · exact hfetch

theorem process_file_thumb_independent (fs' : FS) (src : FPath) (out_dir : String)
    (smp : List (Option Nat)) (resp : LMResponse) (tn1 tn2 : ThumbNet) (tr1 tr2 : Bool)
    (tmpl : Option String) :
    Except.map dropThumb (process_file fs' src out_dir ⟨smp, resp, tn1, tr1⟩ tmpl).1 =
      Except.map dropThumb (process_file fs' src out_dir ⟨smp, resp, tn2, tr2⟩ tmpl).1 := by
  by_cases hst : wait_for_stable smp 3 = false
  · simp [process_file, hst]
  · cases hread : fs' src with
    | none => simp [process_file, hst, hread]
    | some text =>
      cases hc : call_lm_studio_markdown text resp with
      | error e => simp [process_file, hst, hread, hc]
      | ok summary_md =>
        simp only [process_file, hst, if_false, hread, hc]
        simp [Except.map, dropThumb]

/-- C4: the asset fetcher turns any network error or non-success status
into "no asset" with the filesystem untouched (its `try/except` swallows
fetch-time exceptions, modelled by `net.resp = none`), and the file
processor's outcome — success flag, source, output, identifier, and any
error message — is identical whatever the thumbnail network or a raised
thumbnail exception does. -/
theorem asset_fetch_best_effort (fs : FS) (v : Str) (t : String) (net : ThumbNet)
    (hnc : ∀ c, fs (resolveTemplate t v) = some c → c = [])
    (herr : net.resp = none ∨ ∃ st body, net.resp = some (st, body) ∧ st ≠ 200) :
    ((download_thumbnail fs v t net).1 = none ∧ (download_thumbnail fs v t net).2.1 = fs) ∧
    (∀ (fs' : FS) (src : FPath) (out_dir : String) (smp : List (Option Nat))
       (resp : LMResponse) (tn1 tn2 : ThumbNet) (tr1 tr2 : Bool) (tmpl : Option String),
      Except.map dropThumb (process_file fs' src out_dir ⟨smp, resp, tn1, tr1⟩ tmpl).1 =
        Except.map dropThumb (process_file fs' src out_dir ⟨smp, resp, tn2, tr2⟩ tmpl).1) :=
  ⟨download_thumbnail_fail_none fs v t net hnc herr,
   fun fs' src out_dir smp resp tn1 tn2 tr1 tr2 tmpl =>
     process_file_thumb_independent fs' src out_dir smp resp tn1 tn2 tr1 tr2 tmpl⟩

theorem asset_fetch_best_effort_witness :
    ((download_thumbnail (fun _ => none) (str "dQw4w9WgXcQ") "/a/\x7bvideoId\x7d.jpg"
        ⟨some (404, str "nf")⟩).1 = none ∧
      (download_thumbnail (fun _ => none) (str "dQw4w9WgXcQ") "/a/\x7bvideoId\x7d.jpg"
        ⟨some (404, str "nf")⟩).2.1 = (fun _ => none : FS)) ∧
    Except.map dropThumb
        (process_file (fun _ => none) "in/a.md" "out"
          ⟨[], ⟨200, str "raw", some (str "S"), none⟩, ⟨some (404, str "nf")⟩, false⟩ none).1 =
      Except.map dropThumb
        (process_file (fun _ => none) "in/a.md" "out"
          ⟨[], ⟨200, str "raw", some (str "S"), none⟩, ⟨none⟩, true⟩ none).1 := by
  have h := asset_fetch_best_effort (fun _ => none) (str "dQw4w9WgXcQ")
    "/a/\x7bvideoId\x7d.jpg" ⟨some (404, str "nf")⟩
    (fun c hc => by simp at hc)
    (Or.inr ⟨404, str "nf", rfl, by decide⟩)
  exact ⟨h.1, h.2 (fun _ => none) "in/a.md" "out" [] ⟨200, str "raw", some (str "S"), none⟩
    ⟨some (404, str "nf")⟩ ⟨none⟩ false true none⟩

/-! ## C5: asset fetch idempotence -/

/-- C5 counterexample: with a failing network (status 404) and no cached
file, running the asset fetcher twice performs two network calls, not
one — "running it twice performs exactly one network call" is false as
stated. -/
theorem asset_fetch_two_calls_counterexample :
    (download_thumbnail (fun _ => none) (str "dQw4w9WgXcQ") "/a/\x7bvideoId\x7d.jpg"
        ⟨some (404, str "nf")⟩).2.2 +
      (download_thumbnail
        (download_thumbnail (fun _ => none) (str "dQw4w9WgXcQ") "/a/\x7bvideoId\x7d.jpg"
          ⟨some (404, str "nf")⟩).2.1
        (str "dQw4w9WgXcQ") "/a/\x7bvideoId\x7d.jpg" ⟨some (404, str "nf")⟩).2.2 = 2 := rfl

/-- C5 (amended): whenever a non-empty file exists at the resolved path
the fetcher returns it with zero network calls; and after a first run
whose fetch succeeds (status 200, non-empty body), a second run makes no
network call and reuses the stored file — so the pair makes at most one
call.  (A first run that fails, or stores an empty body, is retried.) -/
theorem asset_fetch_idempotent_after_success (fs : FS) (v : Str) (t : String)
    (net : ThumbNet) (body : Str) (h200 : net.resp = some (200, body)) (hbody : body ≠ []) :
    (download_thumbnail fs v t net).2.2 ≤ 1 ∧
    (∀ net' : ThumbNet,
      (download_thumbnail (download_thumbnail fs v t net).2.1 v t net').2.2 = 0 ∧
      (download_thumbnail (download_thumbnail fs v t net).2.1 v t net').1 =
        some (resolveTemplate t v)) ∧
    (∀ c, fs (resolveTemplate t v) = some c → c ≠ [] →
      download_thumbnail fs v t net = (some (resolveTemplate t v), fs, 0)) := by
  cases hfs : fs (resolveTemplate t v) with
  | some c =>
    by_cases hc : c = []
    · subst hc
      refine ⟨?_, ?_, ?_⟩
      · simp [download_thumbnail, hfs, thumbFetch, h200]
      · intro net'
        have hfs2 : (download_thumbnail fs v t net).2.1 =
            writeFile fs (resolveTemplate t v) body := by
          simp [download_thumbnail, hfs, thumbFetch, h200]
        rw [hfs2]
        constructor <;> simp [download_thumbnail, writeFile, hbody]
      · intro c' hc' hne
        injection hc' with h
        exact absurd h.symm hne
    · refine ⟨?_, ?_, ?_⟩
      · simp [download_thumbnail, hfs, hc]
      · intro net'
        constructor <;> simp [download_thumbnail, hfs, hc]
      · intro c' hc' hne
        simp [download_thumbnail, hfs, hc]
  | none =>
    refine ⟨?_, ?_, ?_⟩
    · simp [download_thumbnail, hfs, thumbFetch, h200]
    · intro net'
      have hfs2 : (download_thumbnail fs v t net).2.1 =
          writeFile fs (resolveTemplate t v) body := by
        simp [download_thumbnail, hfs, thumbFetch, h200]
      rw [hfs2]
      constructor <;> simp [download_thumbnail, writeFile, hbody]
    · intro c' hc' hne
      exact absurd hc' (by simp)

theorem asset_fetch_idempotent_witness :
    (download_thumbnail (fun _ => none) (str "dQw4w9WgXcQ") "/a/\x7bvideoId\x7d.jpg"
        ⟨some (200, str "JPG")⟩).2.2 ≤ 1 ∧
    (download_thumbnail
        (download_thumbnail (fun _ => none) (str "dQw4w9WgXcQ") "/a/\x7bvideoId\x7d.jpg"
          ⟨some (200, str "JPG")⟩).2.1
        (str "dQw4w9WgXcQ") "/a/\x7bvideoId\x7d.jpg" ⟨some (404, str "x")⟩).2.2 = 0 := by
  have h := asset_fetch_idempotent_after_success (fun _ => none) (str "dQw4w9WgXcQ")
    "/a/\x7bvideoId\x7d.jpg" ⟨some (200, str "JPG")⟩ (str "JPG") rfl (by decide)
  exact ⟨h.1, (h.2.1 ⟨some (404, str "x")⟩).1⟩

/-! ## C9: stability detector -/

theorem wfsGo_run (k s : Nat) (hs : 0 < s) (rest : List (Option Nat)) :
    ∀ m steady, k ≤ m + steady → 1 ≤ m →
      wfsGo k (List.replicate m (some s) ++ rest) (s : Int) steady = true := by
  intro m
  induction m with
  | zero => intro steady h h1; omega
  | succ n ih =>
    intro steady hk h1
    simp only [List.replicate_succ, List.cons_append, wfsGo]
    split
    · split
      · rfl
      · next hks => exact ih (steady + 1) (by omega) (by omega)
    · next hcond => exact absurd ⟨by simp, hs⟩ hcond

theorem wfsGo_entry (k s : Nat) (hk : 1 ≤ k) (hs : 0 < s) (rest : List (Option Nat)) :
    ∀ (last : Int) (steady : Nat),
      wfsGo k (List.replicate (k + 1) (some s) ++ rest) last steady = true := by
  intro last steady
  simp only [List.replicate_succ, List.cons_append, wfsGo]
  split
  · next heq =>
    split
    · rfl
    · next hks =>
      rw [← heq.1]
      exact wfsGo_run k s hs rest k (steady + 1) (by omega) hk
  · exact wfsGo_run k s hs rest k 0 (by omega) hk

theorem wfsGo_pre (k s : Nat) (hk : 1 ≤ k) (hs : 0 < s) (rest : List (Option Nat)) :
    ∀ (pre : List (Option Nat)) (last : Int) (steady : Nat),
      wfsGo k (pre ++ (List.replicate (k + 1) (some s) ++ rest)) last steady = true := by
  intro pre
  induction pre with
  | nil => intro last steady; exact wfsGo_entry k s hk hs rest last steady
  | cons o pre' ih =>
    intro last steady
    cases o with
    | none =>
      simp only [List.cons_append, wfsGo]
      exact ih last steady
    | some size =>
      simp only [List.cons_append, wfsGo]
      split
      · split
        · rfl
        · exact ih _ _
      · exact ih _ _

theorem wfs_none_false (k : Nat) :
    ∀ samples : List (Option Nat), (∀ x ∈ samples, x = none) →
      ∀ (last : Int) (steady : Nat), wfsGo k samples last steady = false := by
  intro samples
  induction samples with
  | nil => intro _ _ _; rfl
  | cons o rest ih =>
    intro h last steady
    have ho := h o (by simp)
    subst ho
    simp only [wfsGo]
    exact ih (fun x hx => h x (by simp [hx])) last steady

/-- C9 (amended): once the loop sees `stable_checks + 1` consecutive
samples with the same nonzero size — an anchor plus `stable_checks`
confirmations of an unchanged size — it returns `True` no matter what
came before; exhausting the allotted samples (the timeout), e.g. on a
file that never exists, returns `False` rather than raising; and a
missing-file sample is skipped without touching the detector's state. -/
theorem stability_detector_spec (k s : Nat) (hk : 1 ≤ k) (hs : 0 < s)
    (pre rest samples : List (Option Nat)) (hnone : ∀ x ∈ samples, x = none) :
    wait_for_stable (pre ++ (List.replicate (k + 1) (some s) ++ rest)) k = true ∧
    wait_for_stable samples k = false ∧
    (∀ (l : List (Option Nat)) (last : Int) (steady : Nat),
      wfsGo k (none :: l) last steady = wfsGo k l last steady) :=
  ⟨wfsGo_pre k s hk hs rest pre (-1) 0,
   wfs_none_false k samples hnone (-1) 0,
   fun _ _ _ => rfl⟩

/-- C9 counterexample: three consecutive identical nonzero samples — the
`stable_checks = 3` that the claim's "fixed number" denotes — do not make
`wait_for_stable` return `True`; the code requires `stable_checks + 1`
identical sightings. -/
theorem stability_three_samples_counterexample :
    wait_for_stable [some 5, some 5, some 5] 3 = false ∧ 0 < 5 := by decide

theorem stability_detector_spec_witness :
    wait_for_stable ([none, some 1] ++ (List.replicate (3 + 1) (some 5) ++ [])) 3 = true ∧
    wait_for_stable [none, none] 3 = false ∧
    wfsGo 3 (none :: [some 2]) 0 0 = wfsGo 3 [some 2] 0 0 := by
  have h := stability_detector_spec 3 5 (by decide) (by decide) [none, some 1] [] [none, none]
    (by decide)
  exact ⟨h.1, h.2.1, h.2.2 [some 2] 0 0⟩

/-- A concrete filesystem holding one pending transcript. -/
def fsW : FS := fun p => if p = "in/a.md" then some (str "hello") else none

/-- A per-file environment under which processing succeeds. -/
def envW : FileEnv :=
  ⟨[some 5, some 5, some 5, some 5], ⟨200, str "raw", some (str "Summary."), none⟩, ⟨none⟩, false⟩

/-- A per-file environment whose stability wait times out. -/
def envBad : FileEnv := ⟨[], ⟨200, str "raw", some (str "Summary."), none⟩, ⟨none⟩, false⟩

theorem cleanup_spec_witness :
    (process_file fsW "in/a.md" "out" envW none).2.1 "in/a.md" = none ∧
    (process_file fsW "in/a.md" "out" envBad none).2.1 = fsW ∧
    unlinkMissingOk (unlinkMissingOk fsW "in/a.md") "in/a.md" =
      unlinkMissingOk fsW "in/a.md" := by
  have h1 := cleanup_spec fsW "in/a.md" "out" envW none (by decide)
  have h2 := cleanup_spec fsW "in/a.md" "out" envBad none (by decide)
  exact ⟨(h1.2.1 ⟨"in/a.md", "out/a.md", none, none⟩ rfl).1,
         h2.1 (str "File did not become stable in time.") rfl,
         (h1.2.2 fsW "in/a.md").1⟩

/-! ## C1: batch aggregation -/

theorem process_file_ok_source (fs : FS) (src : FPath) (out_dir : String)
    (env : FileEnv) (tmpl : Option String) :
    ∀ r, (process_file fs src out_dir env tmpl).1 = .ok r → r.source = src := by
  intro r
  simp only [process_file]
  split
  · intro h; simp at h
  · split
    · intro h; simp at h
    · split
      · intro h; simp at h
      · intro h
        rw [Except.ok.injEq] at h
        subst h
        rfl

theorem mainLoop_spec (out_dir : String) (tmpl : Option String) (total : Nat) :
    ∀ (files : List (FPath × FileEnv)) (fs : FS) (i : Nat),
      (mainLoop out_dir tmpl total fs i files).2.1.length = files.length ∧
      (mainLoop out_dir tmpl total fs i files).2.2.1 =
        (mainLoop out_dir tmpl total fs i files).2.1.countP FileResult.isFail ∧
      (mainLoop out_dir tmpl total fs i files).2.1.map FileResult.source =
        files.map Prod.fst := by
  intro files
  induction files with
  | nil => intro fs i; simp [mainLoop]
  | cons hd rest ih =>
    intro fs i
    obtain ⟨src, env⟩ := hd
    simp only [mainLoop]
    split
    · next r heq =>
      obtain ⟨ihl, ihc, ihm⟩ := ih (process_file fs src out_dir env tmpl).2.1 (i + 1)
      refine ⟨by simpa using ihl, ?_, ?_⟩
      · simpa [List.countP_cons, FileResult.isFail] using ihc
      · simp only [List.map_cons, FileResult.source]
        rw [process_file_ok_source fs src out_dir env tmpl r heq]
        simpa using ihm
    · next e heq =>
      obtain ⟨ihl, ihc, ihm⟩ := ih (process_file fs src out_dir env tmpl).2.1 (i + 1)
      refine ⟨by simpa using ihl, ?_, ?_⟩
      · simpa [List.countP_cons, FileResult.isFail] using ihc
      · simp only [List.map_cons, FileResult.source]
        simpa using ihm

/-- C1: the batch runner gives every discovered file exactly one entry in
`results` (in discovery order, failures included — the loop continues
past each failure), the failure counter equals the number of failed
entries, and the final `complete` event — the last event emitted —
reports `processed = N - failed`, `failed`, and that `results` list. -/
theorem batch_complete_event (fs : FS) (files : List (FPath × FileEnv))
    (out_dir : String) (tmpl : Option String) :
    (mainRun fs files out_dir tmpl).2.1.length = files.length ∧
    (mainRun fs files out_dir tmpl).2.2.1 =
      (mainRun fs files out_dir tmpl).2.1.countP FileResult.isFail ∧
    (mainRun fs files out_dir tmpl).2.2.1 ≤ files.length ∧
    (mainRun fs files out_dir tmpl).2.1.map FileResult.source = files.map Prod.fst ∧
    (mainRun fs files out_dir tmpl).1.getLast? =
      some (Event.complete
        (files.length - (mainRun fs files out_dir tmpl).2.2.1)
        (mainRun fs files out_dir tmpl).2.2.1
        (mainRun fs files out_dir tmpl).2.1) := by
  cases files with
  | nil => simp [mainRun]
  | cons hd rest =>
    obtain ⟨hl, hc, hm⟩ := mainLoop_spec out_dir tmpl (hd :: rest).length (hd :: rest) fs 0
    have hle : (mainLoop out_dir tmpl (hd :: rest).length fs 0 (hd :: rest)).2.2.1 ≤
        (hd :: rest).length := by
      rw [hc]
      exact le_trans (List.countP_le_length _) (le_of_eq hl)
    refine ⟨hl, hc, hle, hm, ?_⟩
    simp only [mainRun]
    rw [List.getLast?_concat]

/-! ## C3 and C10: summarization client -/

theorem dropWhile_head_not (p : Char → Bool) (l : Str) :
    ∀ c, (l.dropWhile p).head? = some c → p c = false := by
  induction l with
  | nil => intro c h; simp at h
  | cons a as ih =>
    intro c h
    by_cases hp : p a
    · rw [List.dropWhile_cons_of_pos hp] at h
      exact ih c h
    · rw [List.dropWhile_cons_of_neg hp] at h
      simp only [List.head?_cons, Option.some.injEq] at h
      rw [← h]
      exact Bool.of_not_eq_true hp

theorem pyStrip_getLast_not_ws (s : Str) :
    ∀ c, (pyStrip s).getLast? = some c → isWs c = false := by
  intro c h
  unfold pyStrip at h
  rw [List.getLast?_reverse] at h
  exact dropWhile_head_not isWs _ c h

theorem dropWhile_eq_self_of_head (p : Char → Bool) (l : Str)
    (h : ∀ c, l.head? = some c → p c = false) : l.dropWhile p = l := by
  cases l with
  | nil => rfl
  | cons a as =>
    have := h a rfl
    rw [List.dropWhile_cons_of_neg (by simp [this])]

theorem pyStrip_eq_self (s : Str)
    (hh : ∀ c, s.head? = some c → isWs c = false)
    (hl : ∀ c, s.getLast? = some c → isWs c = false) : pyStrip s = s := by
  unfold pyStrip
  rw [dropWhile_eq_self_of_head isWs s hh]
  rw [dropWhile_eq_self_of_head isWs s.reverse (by
    intro c hc
    rw [List.head?_reverse] at hc
    exact hl c hc)]
  exact List.reverse_reverse s

/-- The joint ending-newline fact for any text of the form produced by
`normalizeBody` on a stripped input. -/
theorem append_newline_ends_once (u : Str) (hu : ∀ c, u.getLast? = some c → isWs c = false) :
    (u ++ (if u.getLast? = some '\n' then [] else ['\n'])).getLast? = some '\n' ∧
    (u ++ (if u.getLast? = some '\n' then [] else ['\n'])).dropLast.getLast? ≠ some '\n' := by
  have hne : ¬ u.getLast? = some '\n' := by
    intro h
    have := hu '\n' h
    simp [isWs] at this
  rw [if_neg hne]
  refine ⟨List.getLast?_concat u, ?_⟩
  rw [List.dropLast_concat]
  exact hne

theorem normalizeBody_is_pyStrip (out : Str) (h : ∃ t, out = pyStrip t) :
    ∃ t, normalizeBody out = pyStrip t ++ (if (pyStrip t).getLast? = some '\n' then [] else ['\n']) := by
  obtain ⟨t, rfl⟩ := h
  unfold normalizeBody
  cases hfence : eatLit (str "```") (pyStrip t) with
  | none => exact ⟨t, rfl⟩
  | some r => exact ⟨stripTrailingFence (stripLeadingFence (pyStrip t)), rfl⟩

/-- C3 counterexample: "fails exactly when status >= 400 or the message
content is empty" is false — with status 200, an empty `content` field
and a non-empty `reasoning` field, the client succeeds (it silently uses
the reasoning text), even though the stated condition holds. -/
theorem lm_client_fail_iff_counterexample :
    ¬ (∀ r : LMResponse, (call_lm_studio_markdown (str "t") r).isOk = false ↔
        (400 ≤ r.status ∨ r.content.getD [] = [])) := by
  intro h
  have h2 := (h ⟨200, str "raw", some [], some (str "x")⟩).mpr (Or.inr rfl)
  exact absurd h2 (by decide)


theorem eatLit_fence (Y : Str) : eatLit (str "```") ('`' :: '`' :: '`' :: Y) = some Y := rfl

theorem stripLeadingFence_newline (X : Str) :
    stripLeadingFence ('`' :: '`' :: '`' :: '\n' :: X) = X.dropWhile isWs := rfl

theorem normalizeBody_fenced (X : Str) :
    normalizeBody ('`' :: '`' :: '`' :: X) =
      pyStrip (stripTrailingFence (stripLeadingFence ('`' :: '`' :: '`' :: X))) ++
        (if (pyStrip (stripTrailingFence (stripLeadingFence ('`' :: '`' :: '`' :: X)))).getLast?
            = some '\n'
         then [] else ['\n']) := rfl

theorem call_isOk_false_iff (it : Str) (r : LMResponse) :
    (call_lm_studio_markdown it r).isOk = false ↔
      (400 ≤ r.status ∨ pyStrip (msgPick r) = []) := by
  simp only [call_lm_studio_markdown]
  split
  · next h => simp [h, Except.isOk, Except.toBool]
  · next h =>
    split
    · next h2 => simp [h2, Except.isOk, Except.toBool]
    · next h2 => simp [h, h2, Except.isOk, Except.toBool]

/-- C3 (amended): the client fails exactly when the HTTP status is at
least 400 or the text it selects — `content`, else `reasoning`, else
empty, by Python-falsy selection — strips to empty; the empty-message
error carries the first 800 characters of the raw body; every success
ends with exactly one trailing newline; and a response wrapped in a
fenced code block is returned with the fence stripped.  No retry exists:
the client consumes a single response. -/
theorem lm_client_spec (it : Str) (r : LMResponse) :
    ((call_lm_studio_markdown it r).isOk = false ↔
      (400 ≤ r.status ∨ pyStrip (msgPick r) = [])) ∧
    (r.status < 400 → pyStrip (msgPick r) = [] →
      call_lm_studio_markdown it r =
        .error (str "Empty assistant message. Raw: " ++ r.text.take 800)) ∧
    (∀ o, call_lm_studio_markdown it r = .ok o →
      o.getLast? = some '\n' ∧ o.dropLast.getLast? ≠ some '\n') ∧
    (∀ core, r.status < 400 →
      msgPick r = ('`' :: '`' :: '`' :: '\n' :: core) ++ ['\n', '`', '`', '`'] →
      (∀ c, core.head? = some c → isWs c = false) →
      (∀ c, core.getLast? = some c → isWs c = false) →
      core ≠ [] →
      call_lm_studio_markdown it r = .ok (core ++ ['\n'])) := by
  refine ⟨call_isOk_false_iff it r, ?_, ?_, ?_⟩
  · intro h1 h2
    simp only [call_lm_studio_markdown]
    rw [if_neg (by omega), if_pos h2]
  · intro o ho
    simp only [call_lm_studio_markdown] at ho
    split at ho
    · simp at ho
    · split at ho
      · simp at ho
      · rw [Except.ok.injEq] at ho
        subst ho
        obtain ⟨t, ht⟩ := normalizeBody_is_pyStrip (pyStrip (msgPick r)) ⟨msgPick r, rfl⟩
        rw [ht]
        exact append_newline_ends_once (pyStrip t) (pyStrip_getLast_not_ws t)
  · intro core h1 hmsg hh hl hne
    have hmsg' : msgPick r = '`' :: '`' :: '`' :: '\n' :: (core ++ ['\n', '`', '`', '`']) := by
      rw [hmsg]
      simp
    have hs : pyStrip (msgPick r) = msgPick r := by
      apply pyStrip_eq_self
      · intro c hc
        rw [hmsg'] at hc
        simp only [List.head?_cons, Option.some.injEq] at hc
        subst hc
        decide
      · intro c hc
        rw [hmsg] at hc
        rw [show ('`' :: '`' :: '`' :: '\n' :: core) ++ ['\n', '`', '`', '`'] =
          (('`' :: '`' :: '`' :: '\n' :: core) ++ ['\n', '`', '`']) ++ ['`'] from by simp] at hc
        rw [List.getLast?_concat] at hc
        injection hc with hc
        subst hc
        decide
    have hcore : (core ++ ['\n', '`', '`', '`']).dropWhile isWs
        = core ++ ['\n', '`', '`', '`'] := by
      apply dropWhile_eq_self_of_head
      intro c hc
      cases core with
      | nil => exact absurd rfl hne
      | cons a as =>
        simp only [List.cons_append, List.head?_cons, Option.some.injEq] at hc
        subst hc
        exact hh a rfl
    have htrail : stripTrailingFence (core ++ ['\n', '`', '`', '`']) = core := by
      unfold stripTrailingFence
      have hrev : (core ++ ['\n', '`', '`', '`']).reverse
          = '`' :: '`' :: '`' :: '\n' :: core.reverse := by simp
      rw [hrev, eatLit_fence]
      show (List.dropWhile isWs ('\n' :: core.reverse)).reverse = core
      rw [List.dropWhile_cons_of_pos (by decide : isWs '\n' = true)]
      rw [dropWhile_eq_self_of_head isWs core.reverse (by
        intro c hc
        rw [List.head?_reverse] at hc
        exact hl c hc)]
      exact List.reverse_reverse core
    have hstripcore : pyStrip core = core := pyStrip_eq_self core hh hl
    have hlastcore : ¬ core.getLast? = some '\n' := by
      intro hx
      have := hl '\n' hx
      simp [isWs] at this
    simp only [call_lm_studio_markdown]
    rw [if_neg (by omega)]
    rw [hs, hmsg']
    rw [if_neg (by simp)]
    rw [normalizeBody_fenced ('\n' :: (core ++ ['\n', '`', '`', '`']))]
    rw [stripLeadingFence_newline]
    rw [hcore, htrail, hstripcore, if_neg hlastcore]

theorem lm_client_spec_witness :
    call_lm_studio_markdown (str "t")
      ⟨200, str "raw", some (str "```\nHi there\n```"), none⟩ = .ok (str "Hi there" ++ ['\n']) := by
  have h := lm_client_spec (str "t") ⟨200, str "raw", some (str "```\nHi there\n```"), none⟩
  exact h.2.2.2 (str "Hi there") (by decide) (by decide) (by decide) (by decide) (by decide)

/-- C10 counterexample: the empty-response error is not raised "only when
both content and reasoning are empty or absent" — a whitespace-only
`content` (a non-empty string, hence Python-truthy) is selected, strips
to empty, and raises even though `reasoning` is non-empty. -/
theorem reasoning_fallback_counterexample :
    ¬ (∀ r : LMResponse, (call_lm_studio_markdown (str "t") r).isOk = false →
        (r.content.getD [] = [] ∧ r.reasoning.getD [] = [])) := by
  intro h
  have h2 := h ⟨200, str "raw", some [' '], some (str "x")⟩ (by decide)
  exact absurd h2.1 (by decide)

theorem pyOrStr_getD (a : Option Str) : pyOrStr a [] = a.getD [] := by
  cases a with
  | none => rfl
  | some s =>
    simp only [pyOrStr, Option.getD_some]
    split
    · next h => exact h.symm
    · rfl

/-- C10 (amended): when `content` is absent or the empty string (the
Python-falsy cases) the client selects the `reasoning` text; it then
fails exactly when that text strips to empty — so whitespace-only
reasoning still fails, and (per the counterexample) a whitespace-only
but non-empty `content` preempts the fallback — and otherwise returns
the normalized reasoning text as the document. -/
theorem reasoning_fallback (it : Str) (r : LMResponse) (hst : r.status < 400)
    (hc : r.content = none ∨ r.content = some []) :
    msgPick r = r.reasoning.getD [] ∧
    ((call_lm_studio_markdown it r).isOk = false ↔ pyStrip (r.reasoning.getD []) = []) ∧
    (pyStrip (r.reasoning.getD []) ≠ [] →
      call_lm_studio_markdown it r = .ok (normalizeBody (pyStrip (r.reasoning.getD [])))) := by
  have hpick : msgPick r = r.reasoning.getD [] := by
    have hbase := pyOrStr_getD r.reasoning
    rcases hc with h | h
    · rw [show msgPick r = pyOrStr r.content (pyOrStr r.reasoning []) from rfl, h]
      exact hbase
    · rw [show msgPick r = pyOrStr r.content (pyOrStr r.reasoning []) from rfl, h]
      rw [show pyOrStr (some []) (pyOrStr r.reasoning []) = pyOrStr r.reasoning [] from by
        simp [pyOrStr]]
      exact hbase
  refine ⟨hpick, ?_, ?_⟩
  · rw [call_isOk_false_iff it r, hpick]
    constructor
    · rintro (h | h)
      · omega
      · exact h
    · exact Or.inr
  · intro hne
    simp only [call_lm_studio_markdown]
    rw [if_neg (by omega), hpick, if_neg hne]

theorem reasoning_fallback_witness :
    msgPick ⟨200, str "raw", some [], some (str "why")⟩
      = (some (str "why") : Option Str).getD [] ∧
    call_lm_studio_markdown (str "t") ⟨200, str "raw", some [], some (str "why")⟩
      = .ok (normalizeBody (pyStrip (str "why"))) := by
  have h := reasoning_fallback (str "t") ⟨200, str "raw", some [], some (str "why")⟩
    (by decide) (Or.inr rfl)
  exact ⟨h.1, h.2.2 (by decide)⟩

/-! ## C6: direct-field precedence -/

/-- C6: when the dedicated `video_id` metadata field matches directly
(the first strategy), the extractor returns exactly that token — the
function returns before the URL-bearing-field and free-text-URL
strategies are consulted, so URLs elsewhere in the document cannot
change the result. -/
theorem video_id_field_priority (text tok : Str)
    (h : searchMLine matchVidFieldAt text = some tok) :
    extract_video_id text = some tok := by
  simp [extract_video_id, h]

theorem video_id_field_priority_witness :
    searchMLine matchVidFieldAt
        (str "---\nvideo_id: dQw4w9WgXcQ\nurl: https://youtu.be/AAAAAAAAAAA\n---\n")
      = some (str "dQw4w9WgXcQ") ∧
    extract_video_id
        (str "---\nvideo_id: dQw4w9WgXcQ\nurl: https://youtu.be/AAAAAAAAAAA\n---\n")
      = some (str "dQw4w9WgXcQ") :=
  ⟨by decide, video_id_field_priority _ _ (by decide)⟩

/-! ## C7: URL-shape extraction -/

/-- C7 counterexample: `abcdefghij-` is a well-formed 11-character token
(letters, digits, `-`), yet the short-link URL embedding it yields no
extraction: the pattern's trailing `\b` fails after a final `-` at the
end of input. -/
theorem url_token_boundary_counterexample :
    (∀ x ∈ str "abcdefghij-", isIdChar x = true) ∧ (str "abcdefghij-").length = 11 ∧
    extract_from_url (str "https://youtu.be/" ++ str "abcdefghij-") = none := by decide

theorem takeId_exact (tok : Str) (hid : ∀ x ∈ tok, isIdChar x = true) :
    takeId tok.length tok = some (tok, []) := by
  have h := takeId_append tok [] hid
  rwa [List.append_nil] at h

theorem tryP1_not_q (c : Char) (rest : Str) (h1 : c ≠ '?') (h2 : c ≠ '&') :
    tryP1 (c :: rest) = none := by
  simp only [tryP1]
  rw [if_neg (by rintro (rfl | rfl) <;> simp at h1 h2)]

theorem searchP1_cons_none (c : Char) (rest : Str) (h : tryP1 (c :: rest) = none) :
    searchP1 (c :: rest) = searchP1 rest := by
  simp only [searchP1, h]

theorem searchP1_no_q (u : Str) (h : ∀ x ∈ u, x ≠ '?' ∧ x ≠ '&') : searchP1 u = none := by
  induction u with
  | nil => rfl
  | cons c rest ih =>
    rw [searchP1_cons_none c rest (tryP1_not_q c rest (h c (by simp)).1 (h c (by simp)).2)]
    exact ih (fun x hx => h x (by simp [hx]))

theorem searchP1_append_no_q (pre : Str) (hpre : ∀ x ∈ pre, x ≠ '?' ∧ x ≠ '&') (s : Str) :
    searchP1 (pre ++ s) = searchP1 s := by
  induction pre with
  | nil => rfl
  | cons c rest ih =>
    rw [List.cons_append]
    rw [searchP1_cons_none c (rest ++ s)
      (tryP1_not_q c _ (hpre c (by simp)).1 (hpre c (by simp)).2)]
    exact ih (fun x hx => hpre x (by simp [hx]))

theorem eatLit_nonid_pat : ∀ (pat s : Str), (∃ c ∈ pat, isIdChar c = false) →
    (∀ x ∈ s, isIdChar x = true) → eatLit pat s = none := by
  intro pat
  induction pat with
  | nil =>
    intro s hpat _
    obtain ⟨c, hc, _⟩ := hpat
    simp at hc
  | cons p ps ih =>
    intro s hpat hs
    cases s with
    | nil => rfl
    | cons c cs =>
      simp only [eatLit]
      by_cases hcp : c = p
      · subst hcp
        rw [if_pos rfl]
        obtain ⟨d, hd, hdid⟩ := hpat
        rcases List.mem_cons.mp hd with rfl | hd'
        · exact absurd (hs d (by simp)) (by simp [hdid])
        · exact ih cs ⟨d, hd', hdid⟩ (fun x hx => hs x (by simp [hx]))
      · rw [if_neg hcp]

theorem tryP2_allid (s : Str) (hs : ∀ x ∈ s, isIdChar x = true) : tryP2 s = none := by
  simp only [tryP2]
  rw [eatLit_nonid_pat (str "youtu.be/") s ⟨'.', by decide, by decide⟩ hs]

theorem tryP3_allid (s : Str) (hs : ∀ x ∈ s, isIdChar x = true) : tryP3 s = none := by
  simp only [tryP3]
  rw [eatLit_nonid_pat (str "youtube.com/shorts/") s ⟨'.', by decide, by decide⟩ hs]

theorem searchP2_cons_none (c : Char) (rest : Str) (h : tryP2 (c :: rest) = none) :
    searchP2 (c :: rest) = searchP2 rest := by
  simp only [searchP2, h]

theorem searchP3_cons_none (c : Char) (rest : Str) (h : tryP3 (c :: rest) = none) :
    searchP3 (c :: rest) = searchP3 rest := by
  simp only [searchP3, h]

theorem searchP2_allid (u : Str) (h : ∀ x ∈ u, isIdChar x = true) : searchP2 u = none := by
  induction u with
  | nil => rfl
  | cons c rest ih =>
    rw [searchP2_cons_none c rest (tryP2_allid _ (fun x hx => h x hx))]
    exact ih (fun x hx => h x (by simp [hx]))

theorem searchP3_allid (u : Str) (h : ∀ x ∈ u, isIdChar x = true) : searchP3 u = none := by
  induction u with
  | nil => rfl
  | cons c rest ih =>
    rw [searchP3_cons_none c rest (tryP3_allid _ (fun x hx => h x hx))]
    exact ih (fun x hx => h x (by simp [hx]))

theorem tryP2_ne_y (c : Char) (rest : Str) (h : c ≠ 'y') : tryP2 (c :: rest) = none := by
  simp only [tryP2]
  rw [show str "youtu.be/" = 'y' :: str "outu.be/" from rfl]
  simp only [eatLit]
  rw [if_neg h]

theorem tryP3_ne_y (c : Char) (rest : Str) (h : c ≠ 'y') : tryP3 (c :: rest) = none := by
  simp only [tryP3]
  rw [show str "youtube.com/shorts/" = 'y' :: str "outube.com/shorts/" from rfl]
  simp only [eatLit]
  rw [if_neg h]

theorem searchP2_append_no_y (pre : Str) (hpre : ∀ x ∈ pre, x ≠ 'y') (s : Str) :
    searchP2 (pre ++ s) = searchP2 s := by
  induction pre with
  | nil => rfl
  | cons c rest ih =>
    rw [List.cons_append]
    rw [searchP2_cons_none c (rest ++ s) (tryP2_ne_y c _ (hpre c (by simp)))]
    exact ih (fun x hx => hpre x (by simp [hx]))

theorem searchP3_append_no_y (pre : Str) (hpre : ∀ x ∈ pre, x ≠ 'y') (s : Str) :
    searchP3 (pre ++ s) = searchP3 s := by
  induction pre with
  | nil => rfl
  | cons c rest ih =>
    rw [List.cons_append]
    rw [searchP3_cons_none c (rest ++ s) (tryP3_ne_y c _ (hpre c (by simp)))]
    exact ih (fun x hx => hpre x (by simp [hx]))

theorem no_q_of_append (pre : Str) (hpre : ∀ x ∈ pre, x ≠ '?' ∧ x ≠ '&') (tok : Str)
    (hid : ∀ x ∈ tok, isIdChar x = true) : ∀ x ∈ pre ++ tok, x ≠ '?' ∧ x ≠ '&' := by
  intro x hx
  rcases List.mem_append.mp hx with h | h
  · exact hpre x h
  · have hid' := hid x h
    constructor <;> rintro rfl <;> exact absurd hid' (by decide)

theorem tryP1_hit_end (tok : Str) (hlen : tok.length = 11)
    (hid : ∀ x ∈ tok, isIdChar x = true)
    (htail : tail1Ok (tok.getLastD ' ') [] = true) :
    tryP1 ('?' :: (str "v=" ++ tok)) = some tok := by
  have ht := takeId_exact tok hid
  rw [hlen] at ht
  rw [List.getLastD_eq_getLast?] at htail
  simp [tryP1, eatLit_self, ht, htail]

theorem tryP2_hit_end (tok : Str) (hlen : tok.length = 11)
    (hid : ∀ x ∈ tok, isIdChar x = true)
    (htail : tail2Ok (tok.getLastD ' ') [] = true) :
    tryP2 (str "youtu.be/" ++ tok) = some tok := by
  have ht := takeId_exact tok hid
  rw [hlen] at ht
  rw [List.getLastD_eq_getLast?] at htail
  simp [tryP2, eatLit_self, ht, htail]

theorem tryP3_hit_end (tok : Str) (hlen : tok.length = 11)
    (hid : ∀ x ∈ tok, isIdChar x = true)
    (htail : tail2Ok (tok.getLastD ' ') [] = true) :
    tryP3 (str "youtube.com/shorts/" ++ tok) = some tok := by
  have ht := takeId_exact tok hid
  rw [hlen] at ht
  rw [List.getLastD_eq_getLast?] at htail
  simp [tryP3, eatLit_self, ht, htail]

theorem tryP1_short (short : Str) (hslen : short.length < 11) :
    tryP1 ('?' :: (str "v=" ++ short)) = none := by
  simp [tryP1, eatLit_self, takeId_short 11 short hslen]

theorem tryP2_short (short : Str) (hslen : short.length < 11) :
    tryP2 (str "youtu.be/" ++ short) = none := by
  simp [tryP2, eatLit_self, takeId_short 11 short hslen]

theorem tryP3_short (short : Str) (hslen : short.length < 11) :
    tryP3 (str "youtube.com/shorts/" ++ short) = none := by
  simp [tryP3, eatLit_self, takeId_short 11 short hslen]

theorem searchP1_hit (tok : Str) (hlen : tok.length = 11)
    (hid : ∀ x ∈ tok, isIdChar x = true)
    (htail : tail1Ok (tok.getLastD ' ') [] = true) :
    searchP1 ('?' :: (str "v=" ++ tok)) = some tok := by
  simp only [searchP1]
  rw [tryP1_hit_end tok hlen hid htail]

theorem searchP2_hit (tok : Str) (hlen : tok.length = 11)
    (hid : ∀ x ∈ tok, isIdChar x = true)
    (htail : tail2Ok (tok.getLastD ' ') [] = true) :
    searchP2 (str "youtu.be/" ++ tok) = some tok := by
  rw [show str "youtu.be/" ++ tok = 'y' :: (str "outu.be/" ++ tok) from rfl]
  simp only [searchP2]
  rw [show 'y' :: (str "outu.be/" ++ tok) = str "youtu.be/" ++ tok from rfl]
  rw [tryP2_hit_end tok hlen hid htail]

theorem searchP3_hit (tok : Str) (hlen : tok.length = 11)
    (hid : ∀ x ∈ tok, isIdChar x = true)
    (htail : tail2Ok (tok.getLastD ' ') [] = true) :
    searchP3 (str "youtube.com/shorts/" ++ tok) = some tok := by
  rw [show str "youtube.com/shorts/" ++ tok = 'y' :: (str "outube.com/shorts/" ++ tok) from rfl]
  simp only [searchP3]
  rw [show 'y' :: (str "outube.com/shorts/" ++ tok) = str "youtube.com/shorts/" ++ tok from rfl]
  rw [tryP3_hit_end tok hlen hid htail]

/-- C7 (amended): for each of the three URL shapes, a URL embedding an
11-character token of the id class whose final character is a word
character (letter, digit or `_`; a final `-` defeats the pattern's `\b`
at end of input, per the counterexample) yields extraction of exactly
that token; a candidate of id-class characters shorter than 11 yields no
match in any shape; and when no strategy of the extractor matches, the
result is `none` rather than an error. -/
theorem url_extraction_spec (tok : Str) (hlen : tok.length = 11)
    (hid : ∀ x ∈ tok, isIdChar x = true)
    (hw : isWordChar (tok.getLastD ' ') = true)
    (short : Str) (hslen : short.length < 11)
    (hsid : ∀ x ∈ short, isIdChar x = true) :
    extract_from_url (str "https://www.youtube.com/watch?v=" ++ tok) = some tok ∧
    extract_from_url (str "https://youtu.be/" ++ tok) = some tok ∧
    extract_from_url (str "https://youtube.com/shorts/" ++ tok) = some tok ∧
    extract_from_url (str "https://www.youtube.com/watch?v=" ++ short) = none ∧
    extract_from_url (str "https://youtu.be/" ++ short) = none ∧
    extract_from_url (str "https://youtube.com/shorts/" ++ short) = none ∧
    (∀ text : Str, searchMLine matchVidFieldAt text = none →
      fieldUrlLookup (str "url") text = none →
      fieldUrlLookup (str "source_url") text = none →
      fieldUrlLookup (str "original_url") text = none →
      urlsLoop (findUrls text) = none →
      extract_video_id text = none) := by
  have htail1 : tail1Ok (tok.getLastD ' ') [] = true := by
    simpa [tail1Ok, boundaryAfter] using hw
  have htail2 : tail2Ok (tok.getLastD ' ') [] = true := by
    simpa [tail2Ok, boundaryAfter] using hw
  refine ⟨?_, ?_, ?_, ?_, ?_, ?_, ?_⟩
  · -- query-parameter form, valid token
    have hp1 : searchP1 (str "https://www.youtube.com/watch?v=" ++ tok) = some tok := by
      rw [show str "https://www.youtube.com/watch?v=" ++ tok
        = str "https://www.youtube.com/watch" ++ ('?' :: (str "v=" ++ tok)) from rfl]
      rw [searchP1_append_no_q (str "https://www.youtube.com/watch") (by decide)]
      exact searchP1_hit tok hlen hid htail1
    simp only [extract_from_url, hp1]
  · -- short-link form, valid token
    have hp1 : searchP1 (str "https://youtu.be/" ++ tok) = none :=
      searchP1_no_q _ (no_q_of_append (str "https://youtu.be/") (by decide) tok hid)
    have hp2 : searchP2 (str "https://youtu.be/" ++ tok) = some tok := by
      rw [show str "https://youtu.be/" ++ tok
        = str "https://" ++ (str "youtu.be/" ++ tok) from rfl]
      rw [searchP2_append_no_y (str "https://") (by decide)]
      exact searchP2_hit tok hlen hid htail2
    simp only [extract_from_url, hp1, hp2]
  · -- shorts form, valid token
    have hp1 : searchP1 (str "https://youtube.com/shorts/" ++ tok) = none :=
      searchP1_no_q _ (no_q_of_append (str "https://youtube.com/shorts/") (by decide) tok hid)
    have hp2 : searchP2 (str "https://youtube.com/shorts/" ++ tok) = none := by
      rw [show str "https://youtube.com/shorts/" ++ tok
        = str "https://" ++ ('y' :: (str "outube.com/shorts/" ++ tok)) from rfl]
      rw [searchP2_append_no_y (str "https://") (by decide)]
      rw [searchP2_cons_none 'y' (str "outube.com/shorts/" ++ tok) rfl]
      rw [searchP2_append_no_y (str "outube.com/shorts/") (by decide)]
      exact searchP2_allid tok hid
    have hp3 : searchP3 (str "https://youtube.com/shorts/" ++ tok) = some tok := by
      rw [show str "https://youtube.com/shorts/" ++ tok
        = str "https://" ++ (str "youtube.com/shorts/" ++ tok) from rfl]
      rw [searchP3_append_no_y (str "https://") (by decide)]
      exact searchP3_hit tok hlen hid htail2
    simp only [extract_from_url, hp1, hp2, hp3]
  · -- query-parameter form, short candidate
    have hq1 : searchP1 (str "https://www.youtube.com/watch?v=" ++ short) = none := by
      rw [show str "https://www.youtube.com/watch?v=" ++ short
        = str "https://www.youtube.com/watch" ++ ('?' :: (str "v=" ++ short)) from rfl]
      rw [searchP1_append_no_q (str "https://www.youtube.com/watch") (by decide)]
      rw [searchP1_cons_none '?' _ (tryP1_short short hslen)]
      exact searchP1_no_q _ (no_q_of_append (str "v=") (by decide) short hsid)
    have hq2 : searchP2 (str "https://www.youtube.com/watch?v=" ++ short) = none := by
      rw [show str "https://www.youtube.com/watch?v=" ++ short
        = str "https://www." ++ ('y' :: (str "outube.com/watch?v=" ++ short)) from rfl]
      rw [searchP2_append_no_y (str "https://www.") (by decide)]
      rw [searchP2_cons_none 'y' (str "outube.com/watch?v=" ++ short) rfl]
      rw [searchP2_append_no_y (str "outube.com/watch?v=") (by decide)]
      exact searchP2_allid short hsid
    have hq3 : searchP3 (str "https://www.youtube.com/watch?v=" ++ short) = none := by
      rw [show str "https://www.youtube.com/watch?v=" ++ short
        = str "https://www." ++ ('y' :: (str "outube.com/watch?v=" ++ short)) from rfl]
      rw [searchP3_append_no_y (str "https://www.") (by decide)]
      rw [searchP3_cons_none 'y' (str "outube.com/watch?v=" ++ short) rfl]
      rw [searchP3_append_no_y (str "outube.com/watch?v=") (by decide)]
      exact searchP3_allid short hsid
    simp only [extract_from_url, hq1, hq2, hq3]
  · -- short-link form, short candidate
    have hr1 : searchP1 (str "https://youtu.be/" ++ short) = none :=
      searchP1_no_q _ (no_q_of_append (str "https://youtu.be/") (by decide) short hsid)
    have hr2 : searchP2 (str "https://youtu.be/" ++ short) = none := by
      rw [show str "https://youtu.be/" ++ short
        = str "https://" ++ ('y' :: (str "outu.be/" ++ short)) from rfl]
      rw [searchP2_append_no_y (str "https://") (by decide)]
      rw [searchP2_cons_none 'y' _ (by
        rw [show ('y' :: (str "outu.be/" ++ short)) = str "youtu.be/" ++ short from rfl]
        exact tryP2_short short hslen)]
      rw [searchP2_append_no_y (str "outu.be/") (by decide)]
      exact searchP2_allid short hsid
    have hr3 : searchP3 (str "https://youtu.be/" ++ short) = none := by
      rw [show str "https://youtu.be/" ++ short
        = str "https://" ++ ('y' :: (str "outu.be/" ++ short)) from rfl]
      rw [searchP3_append_no_y (str "https://") (by decide)]
      rw [searchP3_cons_none 'y' (str "outu.be/" ++ short) rfl]
      rw [searchP3_append_no_y (str "outu.be/") (by decide)]
      exact searchP3_allid short hsid
    simp only [extract_from_url, hr1, hr2, hr3]
  · -- shorts form, short candidate
    have hs1 : searchP1 (str "https://youtube.com/shorts/" ++ short) = none :=
      searchP1_no_q _ (no_q_of_append (str "https://youtube.com/shorts/") (by decide) short hsid)
    have hs2 : searchP2 (str "https://youtube.com/shorts/" ++ short) = none := by
      rw [show str "https://youtube.com/shorts/" ++ short
        = str "https://" ++ ('y' :: (str "outube.com/shorts/" ++ short)) from rfl]
      rw [searchP2_append_no_y (str "https://") (by decide)]
      rw [searchP2_cons_none 'y' (str "outube.com/shorts/" ++ short) rfl]
      rw [searchP2_append_no_y (str "outube.com/shorts/") (by decide)]
      exact searchP2_allid short hsid
    have hs3 : searchP3 (str "https://youtube.com/shorts/" ++ short) = none := by
      rw [show str "https://youtube.com/shorts/" ++ short
        = str "https://" ++ ('y' :: (str "outube.com/shorts/" ++ short)) from rfl]
      rw [searchP3_append_no_y (str "https://") (by decide)]
      rw [searchP3_cons_none 'y' _ (by
        rw [show ('y' :: (str "outube.com/shorts/" ++ short))
          = str "youtube.com/shorts/" ++ short from rfl]
        exact tryP3_short short hslen)]
      rw [searchP3_append_no_y (str "outube.com/shorts/") (by decide)]
      exact searchP3_allid short hsid
    simp only [extract_from_url, hs1, hs2, hs3]
  · intro text e1 e2 e3 e4 e5
    simp only [extract_video_id, e1, e2, e3, e4, e5]

theorem url_extraction_spec_witness :
    extract_from_url (str "https://www.youtube.com/watch?v=" ++ str "dQw4w9WgXcQ")
      = some (str "dQw4w9WgXcQ") ∧
    extract_from_url (str "https://youtu.be/" ++ str "dQw4w9WgXcQ")
      = some (str "dQw4w9WgXcQ") ∧
    extract_from_url (str "https://youtube.com/shorts/" ++ str "dQw4w9WgXcQ")
      = some (str "dQw4w9WgXcQ") ∧
    extract_from_url (str "https://youtu.be/" ++ str "abc") = none ∧
    extract_video_id (str "no links") = none := by
  have h := url_extraction_spec (str "dQw4w9WgXcQ") (by decide) (by decide) (by decide)
    (str "abc") (by decide) (by decide)
  exact ⟨h.1, h.2.1, h.2.2.1, h.2.2.2.2.1, h.2.2.2.2.2.2 (str "no links") rfl rfl rfl rfl rfl⟩
